import Mathlib

/-!
Shallow embedding of the shastity foundation layer (config.py and
filesystem.py) and verification of its specification claims.

Conventions of the embedding:
  - Python values flowing through options are modelled by PyVal.
  - Every Python exception that the embedded code can raise is one
    constructor of PyErr.  A reference to a name that is not bound at the
    point of use (Python 2 raises NameError there) is modelled by
    PyErr.nameError carrying the unbound identifier.
  - Mutable objects reachable from several containers (Option instances
    held by Configurations) are modelled by references (Ref = Nat) into an
    explicit heap; containers hold references, never copies.
-/

namespace Shastity

/-- Python runtime values stored in options (config.py works with strings,
integers and, per the spec, booleans). -/
inductive PyVal : Type
  | str (s : String)
  | int (n : Int)
  | bool (b : Bool)
  deriving DecidableEq, Repr

/-- Python exceptions raised by the embedded code.  nameError models Python
raising NameError on an identifier that is not bound at the point of use
(config.py never defines DuplicateOptionError; filesystem.py never imports
errno).  typeError models TypeError such as a membership test on None. -/
inductive PyErr : Type
  | nameError (ident : String)
  | typeError
  | attributeError
  | assertionError
  | badOptionValueType
  | valueError
  | optionParseError
  | requiredOptionMissing (option_name : String) (comment : Option String)
  | conflictingMerge (name : String)
  | osError (code : Nat) (msg : String)
  | staleTemporaryDirectory (path : String)
  deriving DecidableEq, Repr

/-! ## Options (config.py, classes Option / AbstractOption and subclasses) -/

/-- The kinds of concrete option classes.  StringOption and IntOption are in
config.py; BoolOption is exercised by test_config.test_bool_option but its
class is absent from the source, so its behaviour is modelled from the spec
(see boolParseVal below). -/
inductive OptKind : Type
  | string
  | int
  | bool
  deriving DecidableEq, Repr

/-- Python int() applied to the digits of a string: fails (ValueError) unless
the whole string is an optional sign followed by at least one digit. -/
def pyIntDigits : List Char → Option Nat
  | [] => none
  | [c] => if c.isDigit then some (c.toNat - '0'.toNat) else none
  | c :: cs =>
    if c.isDigit then
      match pyIntDigits cs with
      | some m => some ((c.toNat - '0'.toNat) * 10 ^ cs.length + m)
      | none => none
    else none

/-- Python int(s) on a string: optional sign then decimal digits, else
ValueError.  (Whitespace stripping and other bases are not needed by any
claim and are omitted from the model.) -/
def pyIntOfString (s : String) : Except PyErr Int :=
  match s.toList with
  | '-' :: rest =>
    match pyIntDigits rest with
    | some n => .ok (-(n : Int))
    | none => .error .valueError
  | '+' :: rest =>
    match pyIntDigits rest with
    | some n => .ok (n : Int)
    | none => .error .valueError
  | l =>
    match pyIntDigits l with
    | some n => .ok (n : Int)
    | none => .error .valueError

/-- Python int(x) for the values options receive: a string is parsed, an int
is returned unchanged, a bool is its 0/1 value. -/
def pyInt : PyVal → Except PyErr Int
  | .str s => pyIntOfString s
  | .int n => .ok n
  | .bool b => .ok (if b then 1 else 0)

/-- StringOption._validate / AbstractOption._assertString: the value must be
a string (str or unicode), otherwise BadOptionValueType. -/
def stringValidate : PyVal → Except PyErr Unit
  | .str _ => .ok ()
  | _ => .error .badOptionValueType

/-- IntOption._validate / AbstractOption._assertType(value, int): isinstance
against int.  In Python 2 a bool is an instance of int, so booleans pass. -/
def intValidate : PyVal → Except PyErr Unit
  | .int _ => .ok ()
  | .bool _ => .ok ()
  | _ => .error .badOptionValueType

/-- Python str.lower() for one ASCII character. -/
def pyLowerChar (c : Char) : Char :=
  if 'A' ≤ c ∧ c ≤ 'Z' then Char.ofNat (c.toNat + 32) else c

/-- Python str.lower() (ASCII, which covers every literal the option layer
compares against). -/
def pyLower (s : String) : String := String.mk (s.data.map pyLowerChar)

/-- Modelled from the spec: BoolOption is missing from src (only
test_config.test_bool_option exercises it).  Spec 4.1/8: parse recognizes
exactly the literal forms "true"/"false"/"1"/"0" case-insensitively and
anything else fails with ParseError (OptionParseError in the test). -/
def boolParseVal : PyVal → Except PyErr PyVal
  | .str s =>
    if pyLower s = "true" ∨ pyLower s = "1" then .ok (.bool true)
    else if pyLower s = "false" ∨ pyLower s = "0" then .ok (.bool false)
    else .error .optionParseError
  | _ => .error .optionParseError

/-- Modelled from the spec: BoolOption validation requires a boolean runtime
value (spec 4.1: set validates the runtime type against the declared kind). -/
def boolValidate : PyVal → Except PyErr Unit
  | .bool _ => .ok ()
  | _ => .error .badOptionValueType

/-- The _parse method of each option kind (string -> native value).
StringOption._parse is the identity; IntOption._parse is int(s). -/
def kindParse : OptKind → PyVal → Except PyErr PyVal
  | .string, v => .ok v
  | .int, v => (pyInt v).map PyVal.int
  | .bool, v => boolParseVal v

/-- The _validate method of each option kind. -/
def kindValidate : OptKind → PyVal → Except PyErr Unit
  | .string, v => stringValidate v
  | .int, v => intValidate v
  | .bool, v => boolValidate v

/-- State of one AbstractOption instance.  The source constructor is
AbstractOption(long_name, short_name=None) and sets a private flag set=False;
the private value attribute does not exist until the first successful set
(reading it before that raises AttributeError).  The dflt field is modelled
from the spec: test_config.test_default passes a default keyword that the
source constructor does not accept; spec 4.1 says get returns a configured
default if one was supplied at construction and no value was ever set. -/
structure OptState : Type where
  kind : OptKind
  longName : String
  shortName : Option String
  isSet : Bool
  value : Option PyVal
  dflt : Option PyVal
  deriving DecidableEq, Repr

/-- A freshly constructed option of the given kind. -/
def mkOpt (k : OptKind) (longName : String) (shortName : Option String)
    (dflt : Option PyVal) : OptState :=
  { kind := k, longName := longName, shortName := shortName,
    isSet := false, value := none, dflt := dflt }

/-- Python str(self) of an option.  Option.__str__ returns str(self.name):
self.name is the bound method object (the call parentheses are missing in the
source), and Python stringifies a bound method as a representation of the
form "<bound method ...>", never as the option's long name.  The instance
address inside the real representation varies; the model fixes the
representative text, which like the real one is distinct from any option
name used in this development. -/
def optionPyStr (_o : OptState) : String :=
  "<bound method Option.name of <shastity.config option instance>>"

/-- AbstractOption.set: validate, then record the value and mark the option
set.  A validation failure propagates and leaves the state unchanged. -/
def optSet (o : OptState) (v : PyVal) : Except PyErr OptState :=
  match kindValidate o.kind v with
  | .ok _ => .ok { o with isSet := true, value := some v }
  | .error e => .error e

/-- AbstractOption.parse: set(_parse(value)); a parse failure propagates
before set runs. -/
def optParse (o : OptState) (v : PyVal) : Except PyErr OptState :=
  match kindParse o.kind v with
  | .ok parsed => optSet o parsed
  | .error e => .error e

/-- AbstractOption.get: return the stored value.  When no value was ever set
the source reads a missing attribute (AttributeError); the default branch is
modelled from the spec (see OptState.dflt). -/
def optGet (o : OptState) : Except PyErr PyVal :=
  match o.value with
  | some v => .ok v
  | none =>
    match o.dflt with
    | some d => .ok d
    | none => .error .attributeError

/-- AbstractOption.get_required(comment): when the option was never set (and,
per the spec's default extension, has no default) raise
RequiredOptionMissingError(unicode(self), comment); note the carried
option_name is unicode(self), i.e. the bound-method representation of
optionPyStr, not the long name.  Otherwise return get(). -/
def optGetRequired (o : OptState) (comment : Option String) :
    Except PyErr PyVal :=
  if o.isSet = false ∧ o.dflt = none then
    .error (.requiredOptionMissing (optionPyStr o) comment)
  else optGet o

/-! ## Configurations (config.py, class DefaultConfiguration)

A DefaultConfiguration holds a private dict mapping option name to Option
instance; add_option keys the dict by option.name(), so every key equals the
name of the instance it maps to.  Option instances are mutable Python
objects shared by reference, so a configuration is modelled as a list of
references (in dict iteration order) into a heap of OptState cells, and the
name of a reference is read through a name view of the heap. -/

/-- A reference to an Option instance (a Python object identity). -/
abbrev Ref := Nat

/-- The heap of option instances. -/
abbrev Heap := Ref → OptState

/-- The name view of a heap: what opt.name() returns for each instance
(AbstractOption.name returns the stored long name, which no method ever
rewrites, so it is constant over an instance's lifetime). -/
def heapName (h : Heap) : Ref → String := fun r => (h r).longName

/-- DefaultConfiguration.has_option(name): membership of the name among the
dict keys, i.e. among the names of the held instances. -/
def has_option (η : Ref → String) (c : List Ref) (name : String) : Bool :=
  c.any fun r => η r == name

/-- DefaultConfiguration.get_option(name): the dict lookup self.__options[name]
(some instance, or none where Python would raise KeyError). -/
def get_option (η : Ref → String) (c : List Ref) (name : String) : Option Ref :=
  c.find? fun r => η r == name

/-- DefaultConfiguration.add_option(option): raise if the name is already a
key, else insert keyed by option.name().  The source raises
DuplicateOptionError, a class config.py never defines, so Python would in
fact raise NameError on that identifier. -/
def add_option (η : Ref → String) (c : List Ref) (r : Ref) :
    Except PyErr (List Ref) :=
  if has_option η c (η r) then .error (.nameError "DuplicateOptionError")
  else .ok (c ++ [r])

/-- DefaultConfiguration.remove_option(name): del self.__options[name].  The
dict holds at most one entry per key; filtering removes exactly that entry
under the unique-names invariant every configuration maintains. -/
def remove_option (η : Ref → String) (c : List Ref) (name : String) : List Ref :=
  c.filter fun r => !(η r == name)

/-- The loop of DefaultConfiguration.__init__(opts): for each name/option
pair, assert name == opt.name() (always true of a configuration's own dict,
whose keys are produced by add_option) and add_option it into the fresh
private dict. -/
def initLoop (η : Ref → String) : List Ref → List Ref → Except PyErr (List Ref)
  | acc, [] => .ok acc
  | acc, r :: rs =>
    match add_option η acc r with
    | .ok acc' => initLoop η acc' rs
    | .error e => .error e

/-- DefaultConfiguration(opts): start from an empty dict and add every
option of opts in iteration order. -/
def initConfig (η : Ref → String) (opts : List Ref) : Except PyErr (List Ref) :=
  initLoop η [] opts

/-- One iteration of the merge loop body, for one option of other: if ret
already has the name, either remove it (allow_override) or fail with
ConflictingMergeError(opt.name()); then add_option the other's option. -/
def mergeStep (η : Ref → String) (allow_override : Bool) (ret : List Ref)
    (r : Ref) : Except PyErr (List Ref) :=
  if has_option η ret (η r) then
    if allow_override then add_option η (remove_option η ret (η r)) r
    else .error (.conflictingMerge (η r))
  else add_option η ret r

/-- The for-loop of DefaultConfiguration.merge over other.options(). -/
def mergeLoop (η : Ref → String) (allow_override : Bool) :
    List Ref → List Ref → Except PyErr (List Ref)
  | ret, [] => .ok ret
  | ret, r :: rs =>
    match mergeStep η allow_override ret r with
    | .ok ret' => mergeLoop η allow_override ret' rs
    | .error e => .error e

/-- DefaultConfiguration.merge(other, allow_override): build a new
configuration from self.options() (a fresh dict holding the same Option
references), then fold the loop body over other's options in iteration
order. -/
def merge (η : Ref → String) (self other : List Ref) (allow_override : Bool) :
    Except PyErr (List Ref) :=
  match initConfig η self with
  | .ok ret => mergeLoop η allow_override ret other
  | .error e => .error e

/-- Mutating an Option instance in the heap: the effect on the heap of
calling set(v) on the instance behind r (successful validation assumed by
the caller; a failed set leaves the heap unchanged). -/
def heapSet (h : Heap) (r : Ref) (v : PyVal) : Heap :=
  fun x => if x = r then { h r with isSet := true, value := some v } else h x

/-- The option value observed through a configuration: look the name up in
the container, then read the instance's state from the heap (none when the
name is absent). -/
def observeValue (h : Heap) (c : List Ref) (name : String) :
    Option (Option PyVal) :=
  (get_option (heapName h) c name).map fun r => (h r).value

/-! ## TemporaryDirectory (filesystem.py)

A TemporaryDirectory holds a FileSystem reference, a path and a private
stale flag.  Only close() (also invoked by __exit__ on every scope exit,
normal or exceptional) changes the flag.  The embedding records, for each
close call, how many times fs.rmtree(path) was invoked by that call and
which exception, if any, the call propagated; the behaviour of rmtree
itself is a parameter (it may succeed or raise). -/

/-- Mutable state of a TemporaryDirectory: just the private stale flag
(fs and path are never reassigned). -/
structure TempDirState : Type where
  stale : Bool
  deriving DecidableEq, Repr

/-- A freshly constructed TemporaryDirectory (stale = False). -/
def tdInit : TempDirState := { stale := false }

/-- TemporaryDirectory.close(): when not stale, first set the stale flag,
then invoke fs.rmtree(path).  Returns the new state, the number of rmtree
invocations made by this call, and the exception the call propagates (the
one rmtree raised, if any).  When already stale the call does nothing. -/
def tdClose (rmtreeOutcome : Except PyErr Unit) (s : TempDirState) :
    TempDirState × Nat × Option PyErr :=
  if s.stale then (s, 0, none)
  else
    ({ stale := true }, 1,
      match rmtreeOutcome with
      | .ok _ => none
      | .error e => some e)

/-- A lifetime of n close events (explicit close calls and scope exits,
which call close) starting from state s: the final state and the total
number of rmtree invocations across all of them. -/
def tdCloseMany (rmtreeOutcome : Except PyErr Unit) (s : TempDirState) :
    Nat → TempDirState × Nat
  | 0 => (s, 0)
  | n + 1 =>
    let step := tdClose rmtreeOutcome s
    let rest := tdCloseMany rmtreeOutcome step.1 n
    (rest.1, step.2.1 + rest.2)

/-- Reading the path property: raise StaleTemporaryDirectory(self.__path)
when stale, else return the path. -/
def tdGetPath (path : String) (s : TempDirState) : Except PyErr String :=
  if s.stale then .error (.staleTemporaryDirectory path) else .ok path

/-- Reading the fs property: raise StaleTemporaryDirectory(self.__path)
when stale, else return the filesystem reference (modelled as Unit since
its identity never changes). -/
def tdGetFs (path : String) (s : TempDirState) : Except PyErr Unit :=
  if s.stale then .error (.staleTemporaryDirectory path) else .ok ()

/-! ## MemoryFileSystem (filesystem.py)

The in-memory tree: a directory is a dict from entry name to child; a file
or symlink is a tuple.  Directory dicts are modelled as association lists
in iteration order.  The embedding keeps the source's slips: filesystem.py
never imports errno, so each raise OSError(errno.X, ...) actually raises
NameError on the identifier errno; and the recursive branch of
MemoryFileSystem.__lookup does not return its recursive call, so the Python
function returns None for every path whose component list is non-empty. -/

/-- One node of the MemoryFileSystem tree. -/
inductive MemNode : Type
  | dir (entries : List (String × MemNode))
  | file (contents : String)
  | symlink (target : String)

/-- Lookup of a name in a directory dict. -/
def dirFind (entries : List (String × MemNode)) (name : String) :
    Option MemNode :=
  (entries.find? fun e => e.1 == name).map Prod.snd

/-- The inner function rec of MemoryFileSystem.__lookup.  With an empty
component list it returns the current node.  Otherwise, a non-dict node or a
missing component makes the source build OSError(errno.ENOTDIR, ...) or
OSError(errno.ENOENT, ...); evaluating the unbound identifier errno raises
NameError first.  When the component is found, the source recurses but drops
the recursive result (missing return), so the call returns Python's None —
modelled as Option.none — after propagating any exception from the
recursion. -/
def lookupRec : MemNode → List String → Except PyErr (Option MemNode)
  | cur, [] => .ok (some cur)
  | cur, c :: rest =>
    match cur with
    | .dir entries =>
      match dirFind entries c with
      | some child =>
        match lookupRec child rest with
        | .ok _ => .ok none
        | .error e => .error e
      | none => .error (.nameError "errno")
    | _ => .error (.nameError "errno")

/-- Python str.split(sep) over a character list: splitting an empty string
yields one empty part, and every separator starts a new part. -/
def splitCharList (sep : Char) : List Char → List (List Char)
  | [] => [[]]
  | c :: cs =>
    let rest := splitCharList sep cs
    if c = sep then [] :: rest
    else
      match rest with
      | [] => [[c]]
      | h :: t => (c :: h) :: t

/-- Python path.split('/'): always at least one component. -/
def pySplitSlash (s : String) : List String :=
  (splitCharList '/' s.data).map String.mk

/-- MemoryFileSystem.__lookup(path): run rec from the root over
path.split('/').  Note Python's split always yields at least one component,
so the empty-component base case is unreachable from here and the call can
only produce None or raise. -/
def memLookup (tree : List (String × MemNode)) (path : String) :
    Except PyErr (Option MemNode) :=
  lookupRec (.dir tree) (pySplitSlash path)

/-- Characters of posixpath.split: head is everything up to and including
the last slash, tail the rest. -/
def pySplitAt (p : List Char) : List Char × List Char :=
  match (p.reverse.takeWhile fun c => c ≠ '/'), (p.reverse.dropWhile fun c => c ≠ '/') with
  | tailRev, headRev => (headRev.reverse, tailRev.reverse)

/-- Head normalisation of posixpath.split: strip trailing slashes unless the
head consists only of slashes. -/
def pySplitHead (head : List Char) : List Char :=
  if head.all fun c => c = '/' then head
  else (head.reverse.dropWhile fun c => c = '/').reverse

/-- Python os.path.split for POSIX paths. -/
def osPathSplit (p : String) : String × String :=
  let q := pySplitAt p.toList
  (String.mk (pySplitHead q.1), String.mk q.2)

/-- MemoryFileSystem.__split_slash_agnostically(path): os.path.split, once
more when the file part is empty (trailing slash), then assert both parts
are non-empty (AssertionError otherwise). -/
def splitSlashAgnostically (path : String) :
    Except PyErr (String × String) :=
  let fst := osPathSplit path
  let snd := if fst.2 = "" then osPathSplit fst.1 else fst
  if snd.1 = "" ∨ snd.2 = "" then .error .assertionError
  else .ok snd

/-- MemoryFileSystem.mkdir(path): split off the final component, then
d = self.__lookup(path) — the source resolves the full path, not the
parent — and test newdir in d.  Because __lookup returns None for every
non-empty component list, a lookup that does not raise leaves d = None and
the membership test raises TypeError; the dict branches below are therefore
unreachable (lookupRec_cons_ne_some) and are written out only to mirror the
source text (the success branch would mutate the aliased node d in place,
which the surrounding tree of this model would not see — unobservable, being
unreachable). -/
def memMkdir (tree : List (String × MemNode)) (path : String) :
    Except PyErr (List (String × MemNode)) :=
  match splitSlashAgnostically path with
  | .error e => .error e
  | .ok (_, newdir) =>
    match memLookup tree path with
    | .error e => .error e
    | .ok none => .error .typeError
    | .ok (some (.dir entries)) =>
      if (dirFind entries newdir).isSome then .error (.nameError "errno")
      else .ok tree
    | .ok (some _) => .error .typeError

/-- MemoryFileSystem.__init__: the root starts as dict(tmp=dict()). -/
def memFreshTree : List (String × MemNode) := [("tmp", .dir [])]

/-- MemoryFileSystem.exists(path): the source returns os.path.exists(path),
a query against the host operating system's filesystem; the in-memory tree
is not consulted.  The host state is modelled as a predicate osExists from
paths to booleans. -/
def memExists (_tree : List (String × MemNode)) (osExists : String → Bool)
    (path : String) : Bool :=
  osExists path

/-! ## Sequences of option mutations (for the last-successful-set claim) -/

/-- One mutation call a caller can make on an option instance. -/
inductive OptOp : Type
  | set (v : PyVal)
  | parse (v : PyVal)
  deriving DecidableEq, Repr

/-- Dispatch of one mutation call. -/
def optApply (o : OptState) : OptOp → Except PyErr OptState
  | .set v => optSet o v
  | .parse v => optParse o v

/-- A caller issuing a sequence of set/parse calls, catching failures: a
call that raises leaves the instance unchanged (in the source, _parse and
_validate raise before any assignment happens). -/
def optRun (o : OptState) : List OptOp → OptState
  | [] => o
  | op :: ops =>
    match optApply o op with
    | .ok o' => optRun o' ops
    | .error _ => optRun o ops

/-- Written from the spec's words, as the reference for the get claim: the
value a successful call stores, if the call succeeds (for parse, the parsed
value; for set, the value itself, when validation passes). -/
def opSuccessValue (k : OptKind) : OptOp → Option PyVal
  | .set v =>
    match kindValidate k v with
    | .ok _ => some v
    | .error _ => none
  | .parse v =>
    match kindParse k v with
    | .ok p =>
      match kindValidate k p with
      | .ok _ => some p
      | .error _ => none
    | .error _ => none

/-- Written from the spec's words: the value of the last successful set or
parse call of the sequence, if any. -/
def specLastSet (k : OptKind) : List OptOp → Option PyVal
  | [] => none
  | op :: ops =>
    match specLastSet k ops with
    | some v => some v
    | none => opSuccessValue k op

/-! ## Concrete inputs used by witnesses and counterexamples -/

/-- A heap with two option instances: reference 0 is StringOption('o1'),
every other reference is StringOption('o2', 'o'). -/
def wHeap : Heap := fun r =>
  if r = 0 then mkOpt .string "o1" none none
  else mkOpt .string "o2" (some "o") none

/-- The name view of wHeap: 0 is named "o1", every other reference "o2". -/
def wName : Ref → String := heapName wHeap

/-- A name view in which every instance is named "o2" (two configurations
sharing the one name). -/
def wNameShared : Ref → String := fun _ => "o2"

/-- A host operating system on which no path exists. -/
def osStateEmpty : String → Bool := fun _ => false

/-- A host operating system on which exactly the path "x" exists. -/
def osStateWithX : String → Bool := fun p => p == "x"

lemma optApply_of_success (o : OptState) (op : OptOp) (v : PyVal)
    (h : opSuccessValue o.kind op = some v) :
    optApply o op = .ok { o with isSet := true, value := some v } := by
  cases op with
  | set w =>
    simp only [opSuccessValue] at h
    cases hv : kindValidate o.kind w with
    | ok u =>
      rw [hv] at h
      simp only [Option.some.injEq] at h
      subst h
      simp [optApply, optSet, hv]
    | error e =>
      rw [hv] at h
      exact absurd h (by simp)
  | parse w =>
    simp only [opSuccessValue] at h
    cases hp : kindParse o.kind w with
    | ok p =>
      simp only [hp] at h
      cases hv : kindValidate o.kind p with
      | ok u =>
        simp only [hv] at h
        simp only [Option.some.injEq] at h
        subst h
        simp [optApply, optParse, hp, optSet, hv]
      | error e =>
        simp only [hv] at h
        simp at h
    | error e =>
      simp only [hp] at h
      simp at h

lemma optApply_of_failure (o : OptState) (op : OptOp)
    (h : opSuccessValue o.kind op = none) :
    ∃ e, optApply o op = .error e := by
  cases op with
  | set w =>
    simp only [opSuccessValue] at h
    cases hv : kindValidate o.kind w with
    | ok u =>
      rw [hv] at h
      exact absurd h (by simp)
    | error e =>
      exact ⟨e, by simp [optApply, optSet, hv]⟩
  | parse w =>
    simp only [opSuccessValue] at h
    cases hp : kindParse o.kind w with
    | ok p =>
      simp only [hp] at h
      cases hv : kindValidate o.kind p with
      | ok u =>
        simp only [hv] at h
        simp at h
      | error e =>
        exact ⟨e, by simp [optApply, optParse, hp, optSet, hv]⟩
    | error e =>
      exact ⟨e, by simp [optApply, optParse, hp]⟩

lemma optRun_fields (ops : List OptOp) :
    ∀ o : OptState,
      (optRun o ops).kind = o.kind ∧ (optRun o ops).dflt = o.dflt ∧
      (optRun o ops).value =
        (match specLastSet o.kind ops with
         | some v => some v
         | none => o.value) := by
  induction ops with
  | nil => intro o; exact ⟨rfl, rfl, rfl⟩
  | cons op ops ih =>
    intro o
    rcases hs : opSuccessValue o.kind op with _ | v
    · obtain ⟨e, he⟩ := optApply_of_failure o op hs
      have hrun : optRun o (op :: ops) = optRun o ops := by
        simp [optRun, he]
      rcases ih o with ⟨hk, hd, hv⟩
      refine ⟨by rw [hrun]; exact hk, by rw [hrun]; exact hd, ?_⟩
      rw [hrun, hv]
      rcases h2 : specLastSet o.kind ops with _ | w
      · simp [specLastSet, h2, hs]
      · simp [specLastSet, h2]
    · have he := optApply_of_success o op v hs
      have hrun : optRun o (op :: ops) =
          optRun { o with isSet := true, value := some v } ops := by
        simp [optRun, he]
      rcases ih { o with isSet := true, value := some v } with ⟨hk, hd, hv⟩
      refine ⟨by rw [hrun]; exact hk, by rw [hrun]; exact hd, ?_⟩
      rw [hrun, hv]
      rcases h2 : specLastSet o.kind ops with _ | w
      · simp [specLastSet, h2, hs]
      · simp [specLastSet, h2]

/-- Claim C8: for every option, get() returns the value of the last
successful set() or parse() call of the issued sequence, and when no call
ever succeeded, get() returns the default supplied at construction when one
was supplied (and the source's AttributeError otherwise).  The default
branch is exercised through the spec-modelled dflt field, the source
constructor having no default parameter. -/
theorem C8_get_last_successful_set (k : OptKind) (name : String)
    (short : Option String) (dflt : Option PyVal) (ops : List OptOp) :
    optGet (optRun (mkOpt k name short dflt) ops) =
      match specLastSet k ops with
      | some v => .ok v
      | none =>
        match dflt with
        | some d => .ok d
        | none => .error .attributeError := by
  rcases optRun_fields ops (mkOpt k name short dflt) with ⟨hk, hd, hv⟩
  have hd' : (optRun (mkOpt k name short dflt) ops).dflt = dflt := hd
  have hv' : (optRun (mkOpt k name short dflt) ops).value =
      (match specLastSet k ops with
       | some v => some v
       | none => none) := hv
  rcases h2 : specLastSet k ops with _ | v
  · rw [h2] at hv'
    simp only at hv'
    simp only [optGet, hv', hd']
  · rw [h2] at hv'
    simp only at hv'
    simp [optGet, hv']

/-- Claim C6: the code raises RequiredOptionMissingError on a never-set
option without a default, but the carried option_name is unicode(self) —
the string form of the bound method self.name (Option.__str__ omits the
call) — not the option's name, contradicting the exception's own
docstring.  Evaluated at the failing input StringOption('x'). -/
theorem C6_required_name_bug :
    optGetRequired (mkOpt .string "x" none none) none =
      .error (.requiredOptionMissing
        "<bound method Option.name of <shastity.config option instance>>"
        none)
    ∧ "<bound method Option.name of <shastity.config option instance>>" ≠ "x"
    ∧ optSet (mkOpt .string "x" none none) (.str "v") =
        .ok { mkOpt .string "x" none none with
              isSet := true, value := some (.str "v") }
    ∧ optGetRequired
        { mkOpt .string "x" none none with
          isSet := true, value := some (.str "v") } none = .ok (.str "v")
    ∧ optGet
        { mkOpt .string "x" none none with
          isSet := true, value := some (.str "v") } = .ok (.str "v") := by
  refine ⟨rfl, by decide, rfl, rfl, rfl⟩

/-- Claim C7: a boolean option's parse recognizes exactly the literal forms
"true"/"false"/"1"/"0" case-insensitively and fails with the parse error on
every other string; in particular parsing "True" stores true and parsing
"notabool" fails.  BoolOption is spec-modelled (absent from src, exercised
by test_config.test_bool_option). -/
theorem C7_bool_option_parse :
    (∀ s : String,
      optParse (mkOpt .bool "x" none none) (.str s) =
        if pyLower s = "true" ∨ pyLower s = "1" then
          .ok { mkOpt .bool "x" none none with
                isSet := true, value := some (.bool true) }
        else if pyLower s = "false" ∨ pyLower s = "0" then
          .ok { mkOpt .bool "x" none none with
                isSet := true, value := some (.bool false) }
        else .error .optionParseError)
    ∧ (∃ o, optParse (mkOpt .bool "x" none none) (.str "True") = .ok o ∧
        optGet o = .ok (.bool true))
    ∧ optParse (mkOpt .bool "x" none none) (.str "notabool") =
        .error .optionParseError := by
  have hchar : ∀ s : String,
      optParse (mkOpt .bool "x" none none) (.str s) =
        if pyLower s = "true" ∨ pyLower s = "1" then
          .ok { mkOpt .bool "x" none none with
                isSet := true, value := some (.bool true) }
        else if pyLower s = "false" ∨ pyLower s = "0" then
          .ok { mkOpt .bool "x" none none with
                isSet := true, value := some (.bool false) }
        else .error .optionParseError := by
    intro s
    by_cases h1 : pyLower s = "true" ∨ pyLower s = "1"
    · simp [optParse, kindParse, mkOpt, boolParseVal, h1, optSet,
        kindValidate, boolValidate]
    · by_cases h2 : pyLower s = "false" ∨ pyLower s = "0"
      · simp [optParse, kindParse, mkOpt, boolParseVal, h1, h2, optSet,
          kindValidate, boolValidate]
      · simp [optParse, kindParse, mkOpt, boolParseVal, h1, h2]
  refine ⟨hchar, ?_, ?_⟩
  · refine ⟨{ mkOpt .bool "x" none none with
        isSet := true, value := some (.bool true) }, ?_, rfl⟩
    rw [hchar "True"]
    have : pyLower "True" = "true" ∨ pyLower "True" = "1" := by
      left; decide
    simp [this]
  · rw [hchar "notabool"]
    have h1 : ¬(pyLower "notabool" = "true" ∨ pyLower "notabool" = "1") := by
      decide
    have h2 : ¬(pyLower "notabool" = "false" ∨ pyLower "notabool" = "0") := by
      decide
    simp [h1, h2]

/-! ## Lemmas about configurations and merge -/

lemma has_option_iff (η : Ref → String) (c : List Ref) (n : String) :
    has_option η c n = true ↔ n ∈ c.map η := by
  simp only [has_option, List.any_eq_true, beq_iff_eq, List.mem_map]

lemma has_option_eq_false (η : Ref → String) (c : List Ref) (n : String) :
    has_option η c n = false ↔ n ∉ c.map η := by
  rw [← has_option_iff]
  cases h : has_option η c n <;> simp [h]

lemma get_option_nodup (η : Ref → String) (c : List Ref)
    (hnd : (c.map η).Nodup) (r : Ref) (hr : r ∈ c) :
    get_option η c (η r) = some r := by
  induction c with
  | nil => exact absurd hr (List.not_mem_nil r)
  | cons x xs ih =>
    have hnd2 : η x ∉ xs.map η ∧ (xs.map η).Nodup := by
      rw [List.map_cons, List.nodup_cons] at hnd
      exact hnd
    by_cases hxr : η x = η r
    · rcases List.mem_cons.mp hr with h | h
      · subst h
        show List.find? _ _ = _
        rw [List.find?_cons_of_pos _ (by simp)]
      · exact absurd (hxr ▸ List.mem_map_of_mem η h) hnd2.1
    · have hr' : r ∈ xs := by
        rcases List.mem_cons.mp hr with h | h
        · exact absurd (by rw [h]) hxr
        · exact h
      show List.find? _ _ = _
      rw [List.find?_cons_of_neg _ (by simp [hxr])]
      exact ih hnd2.2 hr'

lemma get_option_append_right (η : Ref → String) (c₁ c₂ : List Ref)
    (n : String) (h : ∀ x ∈ c₁, η x ≠ n) :
    get_option η (c₁ ++ c₂) n = get_option η c₂ n := by
  induction c₁ with
  | nil => rfl
  | cons x xs ih =>
    show List.find? _ _ = _
    rw [List.cons_append,
      List.find?_cons_of_neg _ (by simp [h x (List.mem_cons_self x xs)])]
    exact ih fun y hy => h y (List.mem_cons_of_mem x hy)

lemma remove_not_has (η : Ref → String) (c : List Ref) (n : String) :
    has_option η (remove_option η c n) n = false := by
  rw [has_option_eq_false]
  intro hmem
  rw [List.mem_map] at hmem
  rcases hmem with ⟨r, hr, hn⟩
  rw [remove_option, List.mem_filter] at hr
  rcases hr with ⟨_, hpred⟩
  rw [hn] at hpred
  simp at hpred

lemma remove_eq_of_not_mem (η : Ref → String) (c : List Ref) (n : String)
    (h : n ∉ c.map η) : remove_option η c n = c := by
  rw [remove_option, List.filter_eq_self]
  intro r hr
  have hne : η r ≠ n := fun heq => h (heq ▸ List.mem_map_of_mem η hr)
  simp [hne]

lemma add_option_no_conflict (η : Ref → String) (c : List Ref) (r : Ref)
    (h : η r ∉ c.map η) : add_option η c r = .ok (c ++ [r]) := by
  rw [add_option, if_neg]
  rw [Bool.not_eq_true, has_option_eq_false]
  exact h

lemma initLoop_no_conflict (η : Ref → String) (l : List Ref) :
    ∀ acc, (∀ r ∈ l, η r ∉ acc.map η) → (l.map η).Nodup →
      initLoop η acc l = .ok (acc ++ l) := by
  induction l with
  | nil => intro acc _ _; simp [initLoop]
  | cons r rs ih =>
    intro acc hdisj hnd
    have hnd2 : η r ∉ rs.map η ∧ (rs.map η).Nodup := by
      rw [List.map_cons, List.nodup_cons] at hnd
      exact hnd
    have hadd := add_option_no_conflict η acc r (hdisj r (List.mem_cons_self r rs))
    have hdisj2 : ∀ x ∈ rs, η x ∉ (acc ++ [r]).map η := by
      intro x hx
      rw [List.map_append, List.mem_append]
      rintro (hmem | hmem)
      · exact hdisj x (List.mem_cons_of_mem r hx) hmem
      · simp only [List.map_cons, List.map_nil, List.mem_singleton] at hmem
        exact hnd2.1 (hmem ▸ List.mem_map_of_mem η hx)
    simp only [initLoop, hadd]
    rw [ih (acc ++ [r]) hdisj2 hnd2.2]
    simp

lemma initConfig_self (η : Ref → String) (self : List Ref)
    (hnd : (self.map η).Nodup) : initConfig η self = .ok self := by
  rw [initConfig, initLoop_no_conflict η self [] (by simp) hnd]
  simp

lemma mergeStep_no_conflict (η : Ref → String) (allow : Bool)
    (ret : List Ref) (r : Ref) (h : η r ∉ ret.map η) :
    mergeStep η allow ret r = .ok (ret ++ [r]) := by
  rw [mergeStep, if_neg]
  · exact add_option_no_conflict η ret r h
  · rw [Bool.not_eq_true, has_option_eq_false]
    exact h

lemma mergeLoop_no_conflict (η : Ref → String) (allow : Bool)
    (pre : List Ref) : ∀ ret rest, (∀ r ∈ pre, η r ∉ ret.map η) →
      (pre.map η).Nodup →
      mergeLoop η allow ret (pre ++ rest) = mergeLoop η allow (ret ++ pre) rest := by
  induction pre with
  | nil => intro ret rest _ _; simp
  | cons r rs ih =>
    intro ret rest hdisj hnd
    have hnd2 : η r ∉ rs.map η ∧ (rs.map η).Nodup := by
      rw [List.map_cons, List.nodup_cons] at hnd
      exact hnd
    have hstep := mergeStep_no_conflict η allow ret r (hdisj r (List.mem_cons_self r rs))
    have hdisj2 : ∀ x ∈ rs, η x ∉ (ret ++ [r]).map η := by
      intro x hx
      rw [List.map_append, List.mem_append]
      rintro (hmem | hmem)
      · exact hdisj x (List.mem_cons_of_mem r hx) hmem
      · simp only [List.map_cons, List.map_nil, List.mem_singleton] at hmem
        exact hnd2.1 (hmem ▸ List.mem_map_of_mem η hx)
    rw [List.cons_append]
    simp only [mergeLoop, hstep]
    rw [ih (ret ++ [r]) rest hdisj2 hnd2.2]
    simp

lemma mergeStep_true_eq (η : Ref → String) (ret : List Ref) (r : Ref) :
    mergeStep η true ret r = .ok (remove_option η ret (η r) ++ [r]) := by
  by_cases h : has_option η ret (η r) = true
  · have hrm := remove_not_has η ret (η r)
    simp [mergeStep, h, add_option, hrm]
  · have hb : η r ∉ ret.map η := by
      rw [← has_option_eq_false]
      cases h2 : has_option η ret (η r)
      · rfl
      · exact absurd h2 h
    rw [mergeStep_no_conflict η true ret r hb,
      remove_eq_of_not_mem η ret (η r) hb]

lemma mergeLoop_true_eq (η : Ref → String) (other : List Ref) :
    ∀ ret, (other.map η).Nodup →
      mergeLoop η true ret other =
        .ok (ret.filter (fun x => !decide (η x ∈ other.map η)) ++ other) := by
  induction other with
  | nil =>
    intro ret _
    rw [mergeLoop]
    rw [List.filter_eq_self.mpr (by intro a _; simp), List.append_nil]
  | cons r rs ih =>
    intro ret hnd
    have hnd2 : η r ∉ rs.map η ∧ (rs.map η).Nodup := by
      rw [List.map_cons, List.nodup_cons] at hnd
      exact hnd
    simp only [mergeLoop, mergeStep_true_eq]
    rw [ih _ hnd2.2]
    rw [List.filter_append, remove_option, List.filter_filter]
    have hfc : ∀ x ∈ ret,
        ((!decide (η x ∈ List.map η rs)) && !(η x == η r)) =
          !decide (η x ∈ List.map η (r :: rs)) := by
      intro x _
      rw [List.map_cons]
      by_cases h1 : η x = η r
      · simp [h1]
      · by_cases h2 : η x ∈ List.map η rs <;> simp [h1, h2]
    rw [List.filter_congr hfc]
    have hsing : List.filter (fun x => !decide (η x ∈ List.map η rs)) [r] = [r] := by
      rw [List.filter_eq_self]
      intro a ha
      rw [List.mem_singleton] at ha
      rw [ha]
      simpa using hnd2.1
    rw [hsing, List.append_assoc, List.singleton_append]

lemma mergeStep_ok_inv (η : Ref → String) (allow : Bool) (ret : List Ref)
    (r : Ref) (ret' : List Ref) (h : mergeStep η allow ret r = .ok ret') :
    (ret' = ret ++ [r] ∧ has_option η ret (η r) = false) ∨
      (ret' = remove_option η ret (η r) ++ [r] ∧ allow = true ∧
        has_option η ret (η r) = true) := by
  by_cases hc : has_option η ret (η r) = true
  · cases allow with
    | true =>
      rw [mergeStep_true_eq] at h
      cases h
      exact Or.inr ⟨rfl, rfl, hc⟩
    | false =>
      rw [mergeStep, if_pos hc] at h
      simp at h
  · have hf : has_option η ret (η r) = false := by
      cases h2 : has_option η ret (η r)
      · rfl
      · exact absurd h2 hc
    have hb : η r ∉ ret.map η := (has_option_eq_false η ret (η r)).mp hf
    rw [mergeStep_no_conflict η allow ret r hb] at h
    cases h
    exact Or.inl ⟨rfl, hf⟩

lemma mergeLoop_ok_mem (η : Ref → String) (allow : Bool) :
    ∀ other ret res, mergeLoop η allow ret other = .ok res →
      ∀ r ∈ res, r ∈ ret ∨ r ∈ other := by
  intro other
  induction other with
  | nil =>
    intro ret res h r hr
    rw [mergeLoop] at h
    cases h
    exact Or.inl hr
  | cons x xs ih =>
    intro ret res h r hr
    rw [mergeLoop] at h
    rcases hstep : mergeStep η allow ret x with e | ret'
    · simp only [hstep] at h
      cases h
    · simp only [hstep] at h
      rcases ih ret' res h r hr with hmem | hmem
      · rcases mergeStep_ok_inv η allow ret x ret' hstep with ⟨rfl, _⟩ | ⟨rfl, _, _⟩
        · rcases List.mem_append.mp hmem with hm | hm
          · exact Or.inl hm
          · exact Or.inr ((List.mem_singleton.mp hm) ▸ List.mem_cons_self x xs)
        · rcases List.mem_append.mp hmem with hm | hm
          · exact Or.inl (List.mem_of_mem_filter hm)
          · exact Or.inr ((List.mem_singleton.mp hm) ▸ List.mem_cons_self x xs)
      · exact Or.inr (List.mem_cons_of_mem x hmem)

lemma mergeLoop_false_ok (η : Ref → String) :
    ∀ other ret res, mergeLoop η false ret other = .ok res →
      res = ret ++ other ∧ ∀ r ∈ other, η r ∉ ret.map η := by
  intro other
  induction other with
  | nil =>
    intro ret res h
    rw [mergeLoop] at h
    cases h
    exact ⟨by simp, by simp⟩
  | cons x xs ih =>
    intro ret res h
    rw [mergeLoop] at h
    rcases hstep : mergeStep η false ret x with e | ret'
    · simp only [hstep] at h
      cases h
    · simp only [hstep] at h
      rcases mergeStep_ok_inv η false ret x ret' hstep with ⟨rfl, hc⟩ | ⟨_, habs, _⟩
      · rcases ih (ret ++ [x]) res h with ⟨hres, hdisj⟩
        constructor
        · rw [hres]; simp
        · intro r hr
          rcases List.mem_cons.mp hr with hm | hm
          · subst hm
            exact (has_option_eq_false η ret (η r)).mp hc
          · intro hmem
            exact hdisj r hm
              (by rw [List.map_append, List.mem_append]; exact Or.inl hmem)
      · exact absurd habs (by simp)


/-! ## Claim theorems about merge -/

lemma merge_ok_get_other (η : Ref → String) (self other res : List Ref)
    (allow : Bool)
    (h1 : (self.map η).Nodup) (h2 : (other.map η).Nodup)
    (hok : merge η self other allow = .ok res) :
    ∀ r ∈ other, get_option η res (η r) = some r := by
  rw [merge] at hok
  simp only [initConfig_self η self h1] at hok
  cases allow with
  | false =>
    rcases mergeLoop_false_ok η other self res hok with ⟨rfl, hdisj⟩
    intro r hr
    rw [get_option_append_right η self other (η r) ?_]
    · exact get_option_nodup η other h2 r hr
    · intro x hx heq
      exact hdisj r hr (heq ▸ List.mem_map_of_mem η hx)
  | true =>
    rw [mergeLoop_true_eq η other self h2] at hok
    cases hok
    intro r hr
    rw [get_option_append_right η _ other (η r) ?_]
    · exact get_option_nodup η other h2 r hr
    · intro x hx heq
      rcases List.mem_filter.mp hx with ⟨_, hpred⟩
      rw [heq] at hpred
      simp only [Bool.not_eq_eq_eq_not, Bool.not_true, decide_eq_false_iff_not] at hpred
      exact hpred (List.mem_map_of_mem η hr)

/-- Claim C2: for two configurations with disjoint option-name sets, merge
succeeds under either allow_override value, the result is the concatenation
of both inputs (so its option count is the sum of both counts) and every
option of either input is retrievable by its name from the result as the
very same instance. -/
theorem C2_merge_disjoint (η : Ref → String) (self other : List Ref)
    (allow : Bool)
    (h1 : (self.map η).Nodup) (h2 : (other.map η).Nodup)
    (h3 : ∀ r ∈ other, η r ∉ self.map η) :
    merge η self other allow = .ok (self ++ other)
    ∧ (self ++ other).length = self.length + other.length
    ∧ ∀ r ∈ self ++ other, get_option η (self ++ other) (η r) = some r := by
  have hloop := mergeLoop_no_conflict η allow other self [] h3 h2
  rw [List.append_nil] at hloop
  have hmerge : merge η self other allow = .ok (self ++ other) := by
    rw [merge]
    simp only [initConfig_self η self h1]
    rw [hloop, mergeLoop]
  have hnd : ((self ++ other).map η).Nodup := by
    rw [List.map_append, List.nodup_append]
    refine ⟨h1, h2, ?_⟩
    intro a ha hb
    rcases List.mem_map.mp hb with ⟨r, hr, hra⟩
    exact h3 r hr (hra ▸ ha)
  exact ⟨hmerge, List.length_append self other,
    fun r hr => get_option_nodup η (self ++ other) hnd r hr⟩

/-- Witness for C2 at a concrete input: configurations holding instance 0
(named o1) and instance 1 (named o2). -/
theorem C2_merge_disjoint_witness :
    merge wName [0] [1] false = .ok [0, 1]
    ∧ ([0, 1] : List Ref).length = ([0] : List Ref).length + ([1] : List Ref).length
    ∧ get_option wName [0, 1] "o1" = some 0 := by
  have H := C2_merge_disjoint wName [0] [1] false (by decide) (by decide)
    (by decide)
  exact ⟨H.1, H.2.1, H.2.2 0 (by decide)⟩

/-- Claim C1: when the two configurations share at least one option name,
merge with allow_override = false fails with ConflictingMergeError carrying
the name of the first conflicting option of other's iteration order, and
merge with allow_override = true succeeds with other's instance winning for
every shared name and the result's name set being the union of both inputs'
name sets. -/
theorem C1_merge_shared (η : Ref → String) (self other : List Ref)
    (h1 : (self.map η).Nodup) (h2 : (other.map η).Nodup) :
    (∀ pre r₀ post, other = pre ++ r₀ :: post →
       (∀ r ∈ pre, η r ∉ self.map η) → η r₀ ∈ self.map η →
       merge η self other false = .error (.conflictingMerge (η r₀)))
    ∧ ((∃ r ∈ other, η r ∈ self.map η) →
       ∃ res, merge η self other true = .ok res ∧
         (∀ r ∈ other, get_option η res (η r) = some r) ∧
         (∀ n, n ∈ res.map η ↔ n ∈ self.map η ∨ n ∈ other.map η)) := by
  constructor
  · intro pre r₀ post hother hpre hshared
    subst hother
    have hndpre : (pre.map η).Nodup := by
      rw [List.map_append, List.nodup_append] at h2
      exact h2.1
    rw [merge]
    simp only [initConfig_self η self h1]
    rw [mergeLoop_no_conflict η false pre self (r₀ :: post) hpre hndpre]
    have hhas : has_option η (self ++ pre) (η r₀) = true := by
      rw [has_option_iff, List.map_append, List.mem_append]
      exact Or.inl hshared
    have hstep : mergeStep η false (self ++ pre) r₀ =
        .error (.conflictingMerge (η r₀)) := by
      rw [mergeStep, if_pos hhas]
      rfl
    rw [mergeLoop]
    simp only [hstep]
  · intro _hex
    have hmerge : merge η self other true =
        .ok (self.filter (fun x => !decide (η x ∈ other.map η)) ++ other) := by
      rw [merge]
      simp only [initConfig_self η self h1]
      rw [mergeLoop_true_eq η other self h2]
    refine ⟨_, hmerge, ?_, ?_⟩
    · exact merge_ok_get_other η self other _ true h1 h2 hmerge
    · intro n
      rw [List.map_append, List.mem_append]
      constructor
      · rintro (hn | hn)
        · rcases List.mem_map.mp hn with ⟨x, hx, hxn⟩
          exact Or.inl (hxn ▸ List.mem_map_of_mem η (List.mem_of_mem_filter hx))
        · exact Or.inr hn
      · rintro (hn | hn)
        · by_cases hno : n ∈ other.map η
          · exact Or.inr hno
          · rcases List.mem_map.mp hn with ⟨x, hx, hxn⟩
            refine Or.inl (List.mem_map.mpr ⟨x, List.mem_filter.mpr ⟨hx, ?_⟩, hxn⟩)
            simp only [Bool.not_eq_eq_eq_not, Bool.not_true, decide_eq_false_iff_not]
            rw [hxn]
            exact hno
        · exact Or.inr hn

/-- Witness for C1 at a concrete input: both configurations hold one option
named o2 (instance 0 on the left, instance 1 on the right); the override
merge keeps exactly the right input's instance. -/
theorem C1_merge_shared_witness :
    merge wNameShared [0] [1] false = .error (.conflictingMerge "o2")
    ∧ merge wNameShared [0] [1] true = .ok [1]
    ∧ get_option wNameShared [1] "o2" = some 1 := by
  have H := C1_merge_shared wNameShared [0] [1] (by decide) (by decide)
  obtain ⟨res, hok, hget, _⟩ := H.2 ⟨1, by decide, by decide⟩
  have hcomp : merge wNameShared [0] [1] true = .ok [1] := rfl
  rw [hcomp] at hok
  injection hok with hres
  rw [← hres] at hget
  exact ⟨H.1 [] 1 [] rfl (by decide) (by decide), hcomp, hget 1 (by decide)⟩

/-- Counterexample for claim C9 as stated: after merging the configuration
holding instance 0 (named o1) with the one holding instance 1, the result
holds the very instance 0 of the left input; calling set('v') on the option
obtained from the result (heapSet at reference 0) changes the value observed
through the left input from unset to 'v'.  So a mutable Option instance is
shared between two live configurations and mutation through the result is
visible through the input. -/
theorem C9_merge_no_sharing_counterexample :
    merge wName [0] [1] false = .ok [0, 1]
    ∧ get_option wName [0, 1] "o1" = some 0
    ∧ get_option wName [0] "o1" = some 0
    ∧ observeValue wHeap [0] "o1" = some none
    ∧ observeValue (heapSet wHeap 0 (.str "v")) [0] "o1" =
        some (some (.str "v")) :=
  ⟨rfl, rfl, rfl, rfl, rfl⟩

lemma heapName_heapSet (h : Heap) (r : Ref) (v : PyVal) :
    heapName (heapSet h r v) = heapName h := by
  funext x
  rw [heapName, heapName, heapSet]
  by_cases hx : x = r
  · rw [if_pos hx, hx]
  · rw [if_neg hx]

/-- Claim C9 as amended: merge builds a new configuration container and
leaves both inputs' mappings unchanged, but it copies Option references:
every option instance of the result is an instance of one of the inputs
(for each name of other, other's very instance), so a mutation through a
result option is observed through the contributing input as well. -/
theorem C9_merge_shares_instances (h : Heap) (self other : List Ref)
    (allow : Bool)
    (h1 : (self.map (heapName h)).Nodup)
    (h2 : (other.map (heapName h)).Nodup) :
    ∀ res, merge (heapName h) self other allow = .ok res →
      (∀ r ∈ res, r ∈ self ∨ r ∈ other)
      ∧ (∀ r ∈ other, get_option (heapName h) res (heapName h r) = some r)
      ∧ (∀ v : PyVal, ∀ r ∈ other,
          observeValue (heapSet h r v) res (heapName h r) = some (some v)
          ∧ observeValue (heapSet h r v) other (heapName h r) =
              some (some v)) := by
  intro res hok
  have hmem : ∀ r ∈ res, r ∈ self ∨ r ∈ other := by
    have hok2 := hok
    rw [merge] at hok2
    simp only [initConfig_self (heapName h) self h1] at hok2
    exact mergeLoop_ok_mem (heapName h) allow other self res hok2
  have hget := merge_ok_get_other (heapName h) self other res allow h1 h2 hok
  refine ⟨hmem, hget, ?_⟩
  intro v r hr
  have hsr : (heapSet h r v) r = { h r with isSet := true, value := some v } := by
    rw [heapSet, if_pos rfl]
  constructor
  · rw [observeValue, heapName_heapSet, hget r hr]
    simp only [Option.map_some']
    rw [hsr]
  · rw [observeValue, heapName_heapSet,
      get_option_nodup (heapName h) other h2 r hr]
    simp only [Option.map_some']
    rw [hsr]

/-- Witness for the amended C9 at a concrete input: the merge result holds
instance 1 of the right input for the name o2, and a set('w') on that shared
instance is observed both through the result and through the right input. -/
theorem C9_merge_shares_instances_witness :
    merge wName [0] [1] true = .ok [0, 1]
    ∧ get_option wName [0, 1] "o2" = some 1
    ∧ observeValue (heapSet wHeap 1 (.str "w")) [0, 1] "o2" =
        some (some (.str "w"))
    ∧ observeValue (heapSet wHeap 1 (.str "w")) [1] "o2" =
        some (some (.str "w")) := by
  have hok : merge wName [0] [1] true = .ok [0, 1] := rfl
  have H := C9_merge_shares_instances wHeap [0] [1] true (by decide) (by decide)
    [0, 1] hok
  exact ⟨hok, H.2.1 1 (by decide), (H.2.2 (.str "w") 1 (by decide)).1,
    (H.2.2 (.str "w") 1 (by decide)).2⟩

/-! ## Claim theorems about TemporaryDirectory -/

lemma tdCloseMany_of_stale (rb : Except PyErr Unit) (n : Nat) :
    ∀ s : TempDirState, s.stale = true → tdCloseMany rb s n = (s, 0) := by
  induction n with
  | zero => intro s _; rfl
  | succ m ih =>
    intro s hs
    have hstep : tdClose rb s = (s, 0, none) := by
      simp only [tdClose]
      rw [if_pos hs]
    rw [tdCloseMany]
    simp only [hstep, ih s hs]

/-- Claim C3: over a whole lifetime of n >= 1 close events (explicit close
calls and scope exits, normal or exceptional, all of which run close),
rmtree is invoked exactly once, the handle ends stale, any later read of the
path or fs property fails with StaleTemporaryDirectory, a second close is a
no-op that raises nothing and invokes nothing, and staleness is monotonic. -/
theorem C3_tempdir_exactly_once (rb : Except PyErr Unit) (n : Nat)
    (hn : 1 ≤ n) (p : String) :
    (tdCloseMany rb tdInit n).2 = 1
    ∧ (tdCloseMany rb tdInit n).1.stale = true
    ∧ tdGetPath p (tdCloseMany rb tdInit n).1 =
        .error (.staleTemporaryDirectory p)
    ∧ tdGetFs p (tdCloseMany rb tdInit n).1 =
        .error (.staleTemporaryDirectory p)
    ∧ tdClose rb (tdClose rb tdInit).1 = ((tdClose rb tdInit).1, 0, none)
    ∧ (∀ s : TempDirState, s.stale = true →
        (tdClose rb s).1.stale = true ∧ (tdClose rb s).2.1 = 0) := by
  cases n with
  | zero => exact absurd hn (by decide)
  | succ m =>
    have hfirst : (tdClose rb tdInit).1 = { stale := true } := by
      simp only [tdClose]
      rw [if_neg (by rw [tdInit]; exact Bool.false_ne_true)]
    have hcount : (tdClose rb tdInit).2.1 = 1 := by
      simp only [tdClose]
      rw [if_neg (by rw [tdInit]; exact Bool.false_ne_true)]
    have hmain : tdCloseMany rb tdInit (m + 1) = ({ stale := true }, 1) := by
      rw [tdCloseMany]
      rw [tdCloseMany_of_stale rb m (tdClose rb tdInit).1
        (by rw [hfirst])]
      rw [hfirst, hcount]
      rfl
    refine ⟨by rw [hmain], by rw [hmain], by rw [hmain]; rfl,
      by rw [hmain]; rfl, ?_, ?_⟩
    · rw [hfirst]
      simp [tdClose]
    · intro s hs
      simp only [tdClose]
      rw [if_pos hs]
      exact ⟨hs, rfl⟩

/-- Witness for C3 at a concrete input: two close events with a succeeding
rmtree. -/
theorem C3_tempdir_exactly_once_witness :
    (1 ≤ 2)
    ∧ (tdCloseMany (.ok ()) tdInit 2).2 = 1
    ∧ tdGetPath "/tmp/d" (tdCloseMany (.ok ()) tdInit 2).1 =
        .error (.staleTemporaryDirectory "/tmp/d") := by
  have H := C3_tempdir_exactly_once (.ok ()) 2 (by decide) "/tmp/d"
  exact ⟨by decide, H.1, H.2.2.1⟩

/-- Claim C10: close marks the handle stale before invoking rmtree, so when
rmtree raises, the handle is stale afterwards, the exception propagates from
that first call, a second close is a silent no-op that does not invoke
rmtree again, and path/fs reads fail with the stale error. -/
theorem C10_stale_set_before_rmtree (e : PyErr) (p : String) :
    (tdClose (.error e) tdInit).1.stale = true
    ∧ (tdClose (.error e) tdInit).2.1 = 1
    ∧ (tdClose (.error e) tdInit).2.2 = some e
    ∧ tdClose (.error e) (tdClose (.error e) tdInit).1 =
        ((tdClose (.error e) tdInit).1, 0, none)
    ∧ tdGetPath p (tdClose (.error e) tdInit).1 =
        .error (.staleTemporaryDirectory p)
    ∧ tdGetFs p (tdClose (.error e) tdInit).1 =
        .error (.staleTemporaryDirectory p) :=
  ⟨rfl, rfl, rfl, rfl, rfl, rfl⟩

/-! ## Claim theorems about MemoryFileSystem -/

lemma lookupRec_cons_ne_some (cur : MemNode) (c : String)
    (rest : List String) (x : MemNode) :
    lookupRec cur (c :: rest) ≠ .ok (some x) := by
  intro h
  cases cur with
  | dir entries =>
    simp only [lookupRec] at h
    rcases hf : dirFind entries c with _ | child
    · simp only [hf] at h
      cases h
    · simp only [hf] at h
      rcases hrec : lookupRec child rest with e | v
      · simp only [hrec] at h
        cases h
      · simp only [hrec] at h
        cases h
  | file contents =>
    simp only [lookupRec] at h
    cases h
  | symlink target =>
    simp only [lookupRec] at h
    cases h

/-- Claim C4 is a code bug: on a fresh MemoryFileSystem, mkdir('tmp/foo')
does not succeed; it raises while the claim, the spec (scenario 4) and the
repository's own test (test_filesystem.test_tempdir, which runs mkdir on a
MemoryFileSystem and expects success) require it to create the directory.
The source resolves the full path instead of the parent, so __lookup hits
the missing final component and builds OSError(errno.ENOENT, ...), and
since filesystem.py never imports errno this raises NameError; moreover
__lookup never returns a node for any non-empty component list
(lookupRec_cons_ne_some), so no mkdir call can ever reach its success
branch. -/
theorem C4_mkdir_code_bug :
    memMkdir memFreshTree "tmp/foo" = .error (.nameError "errno") := rfl

/-- Claim C5 is a code bug: MemoryFileSystem.exists delegates to
os.path.exists, so with one and the same in-memory tree (the fresh tree) the
result for path x is false on a host where x does not exist and true on a
host where it does: the outcome is not determined by the in-process tree
state, contradicting the hermeticity the claim (and the class's own purpose,
an in-memory file system for unit testing) requires. -/
theorem C5_exists_consults_host_os :
    memExists memFreshTree osStateEmpty "x" = false
    ∧ memExists memFreshTree osStateWithX "x" = true :=
  ⟨rfl, rfl⟩

end Shastity
